import Mathlib

/-!
Verification of the FloodMapper acquisition orchestrator
(`scripts/01_download_images.py`) against its specification.

Shallow embedding conventions:
* Python floats used only in order comparisons (thresholds, fractions,
  dates) are modelled as `ℚ`; datetimes are modelled as integers on a
  time axis, since only their ordering matters to the checked logic.
* Database rows, GEE task handles and remote calls are modelled as
  explicit data; side effects (queries, submissions, upserts, log lines)
  are recorded as actions in a trace list.
* A Python `try/except` that logs and continues is modelled by total
  functions whose trace records the logged exception.
-/

/-! ### Quality Gate (lines 469-492 of `01_download_images.py`)

The script receives per-purpose thresholds `threshold_clouds_flood`,
`threshold_clouds_ref`, `threshold_invalids_flood`,
`threshold_invalids_ref` as configuration. -/

structure Thresholds where
  cloudsFlood : ℚ
  cloudsRef : ℚ
  invalidsFlood : ℚ
  invalidsRef : ℚ
deriving DecidableEq, Repr

/-- The `thresh_valid` threshold as selected at lines 472-477: the reference pair when
`mode == "ref"`, otherwise the flood pair. -/
def threshValid (t : Thresholds) (mode : String) : ℚ :=
  if mode = "ref" then 1 - t.invalidsRef else 1 - t.invalidsFlood

/-- The `thresh_cloud` threshold as selected at lines 472-477. -/
def threshCloud (t : Thresholds) (mode : String) : ℚ :=
  if mode = "ref" then t.cloudsRef else t.cloudsFlood

/-- The filter block of lines 469-492: starts with `download = True`,
sets it to `False` when `valids < thresh_valid`, logs the result, then
independently sets it to `False` when `cloud_probability/100 >
thresh_cloud` and logs that result too.  The returned list is the log of
the two checks, in program order. -/
def qualityGateRun (t : Thresholds) (mode : String) (valids cloudProb : ℚ) :
    Bool × List (String × Bool) :=
  let tv := threshValid t mode
  let tc := threshCloud t mode
  let download := true
  let step1 : Bool × List (String × Bool) :=
    if valids < tv then (false, [("VALID", false)])
    else (download, [("VALID", true)])
  let step2 : Bool × List (String × Bool) :=
    if cloudProb / 100 > tc then (false, step1.2 ++ [("CLOUD", false)])
    else (step1.1, step1.2 ++ [("CLOUD", true)])
  step2

/-- The final decision bit of the filter block. -/
def gateDecision (t : Thresholds) (mode : String) (valids cloudProb : ℚ) : Bool :=
  (qualityGateRun t mode valids cloudProb).1

/-! ### Per-unit processing (lines 360-545 of `01_download_images.py`)

The image loop iterates over groups keyed by
`(patch_name, solarday, satellite, mode)`.  For each group the body,
wrapped in a `try/except` that only warns and continues:
1. checks `ee_download.istaskrunning(desc)` and `continue`s if a task
   with the same description is already active (line 375);
2. queries `image_downloads` for an existing row with key `desc` and
   `continue`s when its `status` is `1` (lines 384-405);
3. computes the metrics (`info_ee`: `cloud_probability`, `valids`) via a
   remote call that may raise (lines 407-467);
4. runs the quality-gate filter (lines 469-492);
5. if the gate passed: submits the export task and appends it to the
   task list, with `status = -1`; otherwise `status = 0` (lines 498-528);
6. upserts the row with the metrics and `status` (lines 530-540).
Observable steps are recorded as `Act`ions. -/

inductive Act where
  | queryActive (desc : String)
  | ledgerLookup (desc : String)
  | computeMetrics (desc : String)
  | submitJob (desc : String)
  | ledgerUpsert (desc : String) (status : Int)
      (cloudProb : Option ℚ) (valids : Option ℚ)
  | logException (desc : String)
deriving DecidableEq, Repr

/-- A row of the `image_downloads` table (the SELECT at lines 386-390
fetches `image_id, status`; the full row also carries metrics and a data
path, which the skip test never reads). -/
structure LedgerRow where
  status : Int
  cloudProb : Option ℚ
  valids : Option ℚ
  dataPath : String
deriving DecidableEq, Repr

/-- One Export Unit together with the environment the loop body sees:
the existing ledger row for its description key (if any) and the outcome
of the remote metric computation (`none` models the remote call
raising). -/
structure UnitSpec where
  desc : String
  mode : String
  ledgerRecord : Option LedgerRow
  metrics : Option (ℚ × ℚ)
deriving DecidableEq, Repr

/-- Trace of the loop body of lines 360-545 for one Export Unit.
`taskRunning` is the answer of `ee_download.istaskrunning(desc)`.  The
`try/except` at lines 542-545 is modelled by the `logException` action:
a raised metric computation produces that action and the function still
returns, so the caller continues with the next unit. -/
def processUnit (t : Thresholds) (taskRunning : Bool) (u : UnitSpec) :
    List Act :=
  if taskRunning then [Act.queryActive u.desc]
  else
    Act.queryActive u.desc :: Act.ledgerLookup u.desc ::
    (if (u.ledgerRecord.map (·.status)) = some 1 then []
     else
       match u.metrics with
       | none => [Act.computeMetrics u.desc, Act.logException u.desc]
       | some (cloudProb, valids) =>
         if gateDecision t u.mode valids cloudProb then
           [Act.computeMetrics u.desc, Act.submitJob u.desc,
            Act.ledgerUpsert u.desc (-1) (some cloudProb) (some valids)]
         else
           [Act.computeMetrics u.desc,
            Act.ledgerUpsert u.desc 0 (some cloudProb) (some valids)])

/-- Is an action the submission of a job? -/
def isSubmit : Act → Bool
  | Act.submitJob _ => true
  | _ => false

/-- Is an action a metric computation? -/
def isMetrics : Act → Bool
  | Act.computeMetrics _ => true
  | _ => false

/-- Is an action a ledger upsert? -/
def isUpsert : Act → Bool
  | Act.ledgerUpsert _ _ _ _ => true
  | _ => false

/-- Is an action the submission of a job with description `d`? -/
def isSubmitFor (d : String) : Act → Bool
  | Act.submitJob d2 => d2 == d
  | _ => false

/-- Number of job submissions for description `d` in a trace. -/
def submitCount (l : List Act) (d : String) : Nat :=
  l.countP (isSubmitFor d)

/-- Scans a trace and checks that every `submitJob d` is immediately
followed by `ledgerUpsert d (-1)` carrying both metrics (lines 523 and
537-540: `task.start()` is directly followed by the database-update
block with `status = -1`). -/
def upsertAfterSubmit : List Act → Bool
  | [] => true
  | Act.submitJob d :: a :: rest =>
    (match a with
     | Act.ledgerUpsert d2 s (some _) (some _) => d2 == d && s == -1
     | _ => false) && upsertAfterSubmit (a :: rest)
  | Act.submitJob _ :: [] => false
  | _ :: rest => upsertAfterSubmit rest

/-- The image loop over all Export Unit groups.  `active` is the set of
job descriptions with a currently-active task on the platform;
`istaskrunning` is modelled as membership in it, and a submitted task is
active for the remainder of the run, so a submission adds its
description. -/
def runUnits (t : Thresholds) (active : List String) :
    List UnitSpec → List (List Act)
  | [] => []
  | u :: rest =>
    let tr := processUnit t (decide (u.desc ∈ active)) u
    tr :: runUnits t (if tr.any isSubmit then u.desc :: active else active) rest

/-! ### Job monitor (`monitor_tasks`, lines 30-95)

A task handle is modelled by its description, the number of polling
passes for which `task.active()` still answers `True`, and the terminal
`state` string reported once inactive.  Each pass walks the list of
still-active handles, keeps the active ones, and issues one `UPDATE`
per freshly inactive handle; the pass ends with `time.sleep(interval_s)`
and the loop stops when no handles remain. -/

structure MTask where
  desc : String
  activeSteps : Nat
  finalState : String
deriving DecidableEq, Repr

/-- Observable events of `monitor_tasks`: a ledger `UPDATE ... SET
status` keyed by `image_id`, and the sleep between passes. -/
inductive MEvent where
  | write (status : Int) (imageId : String)
  | sleep
deriving DecidableEq, Repr

/-- Line 74-76: the date suffix is stripped from the `image_id` of the
permanent-water layer — `desc[:-5]` whenever `"PERMANENTWATERJRC" in
desc`. -/
def stripDesc (d : String) : String :=
  if List.IsInfix "PERMANENTWATERJRC".data d.data then
    String.mk (d.data.take (d.data.length - 5))
  else d

/-- The ledger write a task receives once inactive (lines 80-88):
status `1` when the reported state is `"COMPLETED"`, status `0`
otherwise, keyed by the (normalized) description. -/
def taskWrite (t : MTask) : MEvent :=
  MEvent.write (if t.finalState = "COMPLETED" then 1 else 0)
    (stripDesc t.desc)

/-- One polling pass (the `for` loop at lines 62-88): returns the tasks
still active (each having answered `active()` once more) and the writes
issued for the freshly inactive ones, in list order. -/
def monitorPass : List MTask → List MTask × List MEvent
  | [] => ([], [])
  | t :: ts =>
    let p := monitorPass ts
    if t.activeSteps > 0 then
      (⟨t.desc, t.activeSteps - 1, t.finalState⟩ :: p.1, p.2)
    else
      (p.1, taskWrite t :: p.2)

/-- Termination measure: one unit per task plus its remaining active
answers. -/
def mMeasure (ts : List MTask) : Nat :=
  (ts.map (fun t => t.activeSteps + 1)).sum

/-- The `while` loop at lines 58-92: as long as handles remain active,
run a pass, emit its writes, sleep, and continue on the retained
handles. -/
def monitorLoop (ts : List MTask) : List MEvent :=
  if h : ts = [] then []
  else
    (monitorPass ts).2 ++ (MEvent.sleep :: monitorLoop (monitorPass ts).1)
termination_by mMeasure ts
decreasing_by
  have hle : ∀ l : List MTask, mMeasure (monitorPass l).1 ≤ mMeasure l := by
    intro l
    induction l with
    | nil => simp [monitorPass, mMeasure]
    | cons t2 l2 ihl =>
      simp only [monitorPass, mMeasure] at *
      split <;> simp only [List.map_cons, List.sum_cons] <;> omega
  cases ts with
  | nil => exact absurd rfl h
  | cons t2 l2 =>
    have hle2 := hle l2
    simp only [monitorPass, mMeasure] at *
    split <;> simp only [List.map_cons, List.sum_cons] <;> omega

/-- The ledger writes contained in a monitor event trace. -/
def writesOf (l : List MEvent) : List MEvent :=
  l.filter (fun e => match e with
    | MEvent.write _ _ => true
    | MEvent.sleep => false)

/-! ### Deduplication of spatial units (lines 232-238)

`aois_data.drop_duplicates(subset=['patch_name'], keep='first',
ignore_index=True)` keeps, in order, the first row bearing each
`patch_name` and drops every later row with a name already seen.
`payload` stands for the remaining columns (geometry, `lga_name22`). -/

structure AoiRow where
  patch_name : String
  payload : Nat
deriving DecidableEq, Repr

/-- Walk of the rows in order, keeping a row iff its `patch_name` has
not been seen in an earlier row. -/
def dropDuplicatesFirstAux (seen : List String) :
    List AoiRow → List AoiRow
  | [] => []
  | r :: rest =>
    if r.patch_name ∈ seen then dropDuplicatesFirstAux seen rest
    else r :: dropDuplicatesFirstAux (r.patch_name :: seen) rest

/-- Pandas `drop_duplicates(subset=['patch_name'], keep='first')`. -/
def dropDuplicatesFirst (l : List AoiRow) : List AoiRow :=
  dropDuplicatesFirstAux [] l

/-! ### Grouping into Export Units (lines 344-350)

`aois_images.groupby(["patch_name", "solarday", "satellite", "mode"])`
partitions the candidate-scene table: one group per distinct key value,
each group holding exactly the rows bearing that key. -/

structure Scene where
  patch_name : String
  solarday : String
  satellite : String
  mode : String
  gee_id : String
deriving DecidableEq, Repr

/-- The groupby key of a scene row. -/
def sceneKey (s : Scene) : String × String × String × String :=
  (s.patch_name, s.solarday, s.satellite, s.mode)

/-- The distinct keys present in a scene table, first occurrences in
order. -/
def groupKeysAux (seen : List (String × String × String × String)) :
    List Scene → List (String × String × String × String)
  | [] => []
  | s :: rest =>
    if sceneKey s ∈ seen then groupKeysAux seen rest
    else sceneKey s :: groupKeysAux (sceneKey s :: seen) rest

/-- One Export Unit per distinct key: the rows of the table bearing
that key, in order.  This is the partition computed by the pandas
`groupby` (key order aside, which the claim does not touch). -/
def exportUnits (scenes : List Scene) : List (List Scene) :=
  (groupKeysAux [] scenes).map
    (fun k => scenes.filter (fun s => decide (sceneKey s = k)))

/-! ### Start/end date validation (lines 160-182)

Datetimes are modelled as integers on a time axis; only their ordering
is used by this code.  For the flood range (lines 161-170): a future end
date is clamped to `today` with a warning, then a future start date
aborts via `sys.exit`.  For the reference range (lines 172-182) the same
two steps run, only when both reference dates were supplied. -/

structure DateSetup where
  floodPeriod : Int × Int
  floodWarned : Bool
  refPeriod : Option ((Int × Int) × Bool)
deriving DecidableEq, Repr

/-- The date-validation phase of `main`.  Mirrors lines 160-182:
clamp `flood_end_date`, fatal-check `flood_start_date`, and when a
reference range is present, clamp `ref_end_date` and fatal-check
`ref_start_date`. -/
def setPeriods (floodStart floodEnd : Int)
    (refDates : Option (Int × Int)) (today : Int) :
    Except String DateSetup :=
  let fw := floodEnd > today
  let floodEnd2 := if floodEnd > today then today else floodEnd
  if floodStart > today then
    Except.error "[ERR] Flood start date set to future time!"
  else
    match refDates with
    | none => Except.ok ⟨(floodStart, floodEnd2), fw, none⟩
    | some (refStart, refEnd) =>
      let rw2 := refEnd > today
      let refEnd2 := if refEnd > today then today else refEnd
      if refStart > today then
        Except.error "[ERR] Ref start date set to future time!"
      else
        Except.ok ⟨(floodStart, floodEnd2), fw,
          some ((refStart, refEnd2), rw2)⟩

/-! ### Permanent-water sub-pipeline (lines 549-613) and the
`patch_name` reference (line 601)

The loop over `aois_data.itertuples()` checks the ledger for a
completed `<patch>_PERMANENTWATERJRC` record, commands the download,
and — when a task object is returned — appends it to the task list and
then calls `do_update_download(db_conn, image_id, patch_name, ...)`.
Python resolves the bare name `patch_name` against the enclosing
function scope; `mainScopeNames` below lists every name bound in
`main` (parameters, assignments, loop targets), read off lines
137-613.  A name not in scope raises `NameError`, which the `except`
at lines 611-613 catches before the loop continues. -/

def mainScopeNames : List String :=
  ["path_aois", "lga_names", "flood_start_date", "flood_end_date",
   "ref_start_date", "ref_end_date", "threshold_clouds_flood",
   "threshold_clouds_ref", "threshold_invalids_flood",
   "threshold_invalids_ref", "collection_placeholder", "bucket_uri",
   "path_env_file", "only_one_previous", "channel_configuration",
   "force_s2cloudless", "grid_name_filter",
   "do_download_ref", "today_date", "flood_duration",
   "period_flood_start", "period_flood_end", "_duration",
   "period_ref_start", "period_ref_end", "rel_grid_path",
   "bucket_grid_path", "bucket_name", "success", "db_conn",
   "fs_pathaois", "aois_data", "lga_names_lst", "query", "data",
   "grid_table", "aois_data_orig_shape", "num_patches",
   "area_of_interest", "ee_collection_placeholder",
   "images_available_gee_flood", "num_flood_images",
   "images_available_gee_ref", "num_ref_images", "images_available_gee",
   "total_images", "aois_images", "num_images", "aois_indexed", "tasks",
   "aois_grp", "num_groups", "_i", "name", "solar_day", "satellite",
   "mode", "images_day_sat", "constellation", "fileNamePrefix", "desc",
   "do_download", "img_row", "polygon_grid", "polygon_images_sat",
   "valid_percentage", "polygon_grid_ee", "image_ids", "image_id",
   "image", "images", "channels_down", "id_lst", "COLLECTION", "clouds",
   "count_fun", "info_ee", "download", "thresh_valid", "thresh_cloud",
   "utcdatetime_save", "solardatetime_save", "status", "lon", "lat",
   "crs", "scale", "task", "num_tasks", "data_path", "e", "aoi_geom",
   "folder_dest_permament", "task_permanent", "tasks_fname",
   "tasks_dump", "f"]

/-- Environment of one pass of the permanent-water loop: the status of
the existing ledger row for `<patch>_PERMANENTWATERJRC` (if any), and
whether `ee_download.download_permanent_water` returned a task
(line 588: `None` means no task). -/
structure AuxEnv where
  ledgerStatus : Option Int
  taskCreated : Bool
deriving DecidableEq, Repr

inductive AuxAct where
  | ledgerLookup (imageId : String)
  | commandDownload (imageId : String)
  | appendTask (imageId : String)
  | ledgerUpsert (imageId : String) (status : Int)
  | nameErrorLogged (nm : String)
deriving DecidableEq, Repr

/-- The body of the permanent-water loop (lines 559-613): look up the
ledger row (`status` defaults to `0` when absent, lines 568-573); skip
when `status == 1`; otherwise command the download; when a task is
returned, append it to the task list (line 598) and then evaluate the
`do_update_download` call (lines 599-609), whose argument list reads
the bare name `patch_name` — the upsert runs only if that name is in
scope, else the `NameError` is caught and logged. -/
def processAuxPatch (scope : List String) (patchName : String)
    (env : AuxEnv) : List AuxAct :=
  let imageId := patchName ++ "_PERMANENTWATERJRC"
  let status := match env.ledgerStatus with
    | some s => s
    | none => 0
  if status = 1 then [AuxAct.ledgerLookup imageId]
  else
    AuxAct.ledgerLookup imageId :: AuxAct.commandDownload imageId ::
    (if env.taskCreated then
       AuxAct.appendTask imageId ::
       (if "patch_name" ∈ scope then [AuxAct.ledgerUpsert imageId (-1)]
        else [AuxAct.nameErrorLogged "patch_name"])
     else [])

/-- The permanent-water loop over all grid patches. -/
def auxRun (scope : List String) :
    List (String × AuxEnv) → List (List AuxAct)
  | [] => []
  | (p, env) :: rest => processAuxPatch scope p env :: auxRun scope rest

/-- C1: The Quality Gate exports iff the valid fraction is at least
`1 - invalid-threshold` and the cloud fraction (`cloud_probability/100`)
is at most the cloud threshold, with the purpose-specific pair selected
by the `"ref"` tag; and both checks are logged, in order, whatever the
outcome of the first. -/
theorem quality_gate_decision (t : Thresholds) (mode : String) (v cp : ℚ) :
    ((qualityGateRun t mode v cp).1 = true ↔
      (v ≥ 1 - (if mode = "ref" then t.invalidsRef else t.invalidsFlood) ∧
       cp / 100 ≤ (if mode = "ref" then t.cloudsRef else t.cloudsFlood))) ∧
    (qualityGateRun t mode v cp).2 =
      [("VALID", decide (¬ v < threshValid t mode)),
       ("CLOUD", decide (¬ cp / 100 > threshCloud t mode))] := by
  unfold qualityGateRun threshValid threshCloud
  by_cases hm : mode = "ref" <;>
    simp only [hm, reduceIte] <;>
    constructor <;>
    · split <;> split <;> simp_all <;> linarith

/-- C8: Monotonicity of the gate decision: raising the valid-pixel
fraction and lowering the cloud probability never flips an export
decision to a skip, for fixed thresholds and purpose tag. -/
theorem quality_gate_monotone (t : Thresholds) (mode : String)
    (v1 c1 v2 c2 : ℚ) (hv : v1 ≤ v2) (hc : c2 ≤ c1)
    (h : gateDecision t mode v1 c1 = true) :
    gateDecision t mode v2 c2 = true := by
  unfold gateDecision at *
  rcases (quality_gate_decision t mode v1 c1).1.mp h with ⟨h1, h2⟩
  refine (quality_gate_decision t mode v2 c2).1.mpr ⟨by linarith, ?_⟩
  have : c2 / 100 ≤ c1 / 100 := by linarith
  linarith

/-- Witness for `quality_gate_monotone` at concrete inputs: thresholds
`(0.95, 0.10, 0.7, 0.1)` (the script's defaults), flood purpose,
`(v1, c1) = (0.8, 50)` exports, hence so does `(0.9, 40)`. -/
theorem quality_gate_monotone_witness :
    ((8 : ℚ)/10 ≤ 9/10) ∧ ((40 : ℚ) ≤ 50) ∧
    gateDecision ⟨95/100, 10/100, 7/10, 1/10⟩ "flood" (8/10) 50 = true ∧
    gateDecision ⟨95/100, 10/100, 7/10, 1/10⟩ "flood" (9/10) 40 = true := by
  have h1 : gateDecision ⟨95/100, 10/100, 7/10, 1/10⟩ "flood" (8/10) 50 = true := by
    simp only [gateDecision, qualityGateRun, threshValid, threshCloud,
      String.reduceEq, reduceIte]
    norm_num
  refine ⟨by norm_num, by norm_num, h1, ?_⟩
  exact quality_gate_monotone ⟨95/100, 10/100, 7/10, 1/10⟩ "flood"
    (8/10) 50 (9/10) 40 (by norm_num) (by norm_num) h1

lemma processUnit_taskRunning (t : Thresholds) (u : UnitSpec) :
    processUnit t true u = [Act.queryActive u.desc] := rfl

lemma submitCount_append (l1 l2 : List Act) (d : String) :
    submitCount (l1 ++ l2) d = submitCount l1 d + submitCount l2 d := by
  simp [submitCount, List.countP_append]

lemma processUnit_submitCount_le_one (t : Thresholds) (b : Bool)
    (u : UnitSpec) (d : String) :
    submitCount (processUnit t b u) d ≤ 1 := by
  unfold processUnit
  split
  · simp [submitCount, isSubmitFor]
  · split
    · simp [submitCount, isSubmitFor]
    · split
      · simp [submitCount, isSubmitFor]
      · split <;>
          simp only [submitCount, List.countP_cons, List.countP_nil,
            isSubmitFor] <;>
          split_ifs <;> simp_all

lemma processUnit_submitCount_ne (t : Thresholds) (b : Bool)
    (u : UnitSpec) (d : String) (h : d ≠ u.desc) :
    submitCount (processUnit t b u) d = 0 := by
  have hb : (u.desc == d) = false := by
    simp only [beq_eq_false_iff_ne, ne_eq]
    exact fun he => h he.symm
  unfold processUnit
  split
  · simp [submitCount, isSubmitFor]
  · split
    · simp [submitCount, isSubmitFor]
    · split
      · simp [submitCount, isSubmitFor]
      · split <;>
          simp [submitCount, List.countP_cons, isSubmitFor, hb]

lemma submitCount_eq_zero_of_any_false (l : List Act) (d : String)
    (h : l.any isSubmit = false) : submitCount l d = 0 := by
  unfold submitCount
  rw [List.countP_eq_zero]
  intro a ha
  have := (List.any_eq_false.mp h) a ha
  cases a <;> simp_all [isSubmit, isSubmitFor]

lemma runUnits_length (t : Thresholds) :
    ∀ (units : List UnitSpec) (active : List String),
      (runUnits t active units).length = units.length := by
  intro units
  induction units with
  | nil => intro active; rfl
  | cons u rest ih => intro active; simp [runUnits, ih]

lemma runUnits_no_submit_of_mem (t : Thresholds) :
    ∀ (units : List UnitSpec) (active : List String) (d : String),
      d ∈ active → submitCount ((runUnits t active units).flatten) d = 0 := by
  intro units
  induction units with
  | nil => intro active d _; simp [runUnits, submitCount]
  | cons u rest ih =>
    intro active d hd
    simp only [runUnits, List.flatten_cons]
    rw [submitCount_append]
    by_cases he : d = u.desc
    · have hmem : decide (u.desc ∈ active) = true := decide_eq_true (he ▸ hd)
      rw [hmem, processUnit_taskRunning]
      have hany : ([Act.queryActive u.desc].any isSubmit) = false := by
        simp [isSubmit]
      rw [hany]
      have h1 : submitCount [Act.queryActive u.desc] d = 0 := by
        simp [submitCount, isSubmitFor]
      simp only [Bool.false_eq_true, if_false, h1, Nat.zero_add]
      exact ih active d hd
    · rw [processUnit_submitCount_ne t _ u d he, Nat.zero_add]
      split
      · exact ih (u.desc :: active) d (List.mem_cons_of_mem _ hd)
      · exact ih active d hd

lemma runUnits_submitCount_le_one (t : Thresholds) :
    ∀ (units : List UnitSpec) (active : List String) (d : String),
      submitCount ((runUnits t active units).flatten) d ≤ 1 := by
  intro units
  induction units with
  | nil => intro active d; simp [runUnits, submitCount]
  | cons u rest ih =>
    intro active d
    simp only [runUnits, List.flatten_cons]
    rw [submitCount_append]
    by_cases he : d = u.desc
    · cases hany : ((processUnit t (decide (u.desc ∈ active)) u).any isSubmit) with
      | true =>
        have h2 := runUnits_no_submit_of_mem t rest (u.desc :: active) d
          (by rw [he]; exact List.mem_cons_self _ _)
        have h1 := processUnit_submitCount_le_one t (decide (u.desc ∈ active)) u d
        simp [h2]
        omega
      | false =>
        have h1 := submitCount_eq_zero_of_any_false _ d hany
        simp only [Bool.false_eq_true, if_false, h1, Nat.zero_add]
        exact ih active d
    · rw [processUnit_submitCount_ne t _ u d he, Nat.zero_add]
      split
      · exact ih (u.desc :: active) d
      · exact ih active d

lemma processUnit_upsertAfterSubmit (t : Thresholds) (b : Bool) (u : UnitSpec) :
    upsertAfterSubmit (processUnit t b u) = true := by
  unfold processUnit
  split
  · simp [upsertAfterSubmit]
  · split
    · simp [upsertAfterSubmit]
    · split
      · simp [upsertAfterSubmit]
      · split <;> simp [upsertAfterSubmit]

lemma runUnits_all_upsertAfterSubmit (t : Thresholds) :
    ∀ (units : List UnitSpec) (active : List String),
      ((runUnits t active units).all upsertAfterSubmit) = true := by
  intro units
  induction units with
  | nil => intro active; rfl
  | cons u rest ih =>
    intro active
    simp only [runUnits, List.all_cons, processUnit_upsertAfterSubmit,
      Bool.true_and]
    split <;> exact ih _

/-- C3: Within one run: (a) each description key receives at most
one job submission (`istaskrunning` answers yes for any job active on
the platform, including those submitted earlier in the same run); (b)
every submission is immediately followed by a ledger upsert at status
`-1` carrying the computed metrics; (c) a unit whose active-job query
finds a running job with its description is skipped entirely — its
trace is just that query. -/
theorem single_submission_per_run (t : Thresholds) (active : List String)
    (units : List UnitSpec) :
    (∀ d, submitCount ((runUnits t active units).flatten) d ≤ 1) ∧
    ((runUnits t active units).all upsertAfterSubmit = true) ∧
    (∀ u : UnitSpec, processUnit t true u = [Act.queryActive u.desc]) :=
  ⟨fun d => runUnits_submitCount_le_one t units active d,
   runUnits_all_upsertAfterSubmit t units active,
   fun u => processUnit_taskRunning t u⟩

/-- C2: A unit whose ledger row exists at status `1` is skipped:
whatever the active-task answer, its trace has no metric computation, no
submission and no upsert, and consists only of the active-task query
followed (when no task is running) by the ledger lookup.  The skip test
reads no field of the row other than `status`: the theorem holds for
every value of the remaining fields. -/
theorem ledger_status_one_skips (t : Thresholds) (b : Bool) (u : UnitSpec)
    (row : LedgerRow) (hrec : u.ledgerRecord = some row)
    (hst : row.status = 1) :
    ((processUnit t b u).all
      (fun a => !(isMetrics a || isSubmit a || isUpsert a)) = true) ∧
    processUnit t b u =
      (if b then [Act.queryActive u.desc]
       else [Act.queryActive u.desc, Act.ledgerLookup u.desc]) := by
  cases b with
  | true =>
    constructor
    · simp [processUnit_taskRunning, isMetrics, isSubmit, isUpsert]
    · simp [processUnit_taskRunning]
  | false =>
    have h : (u.ledgerRecord.map (·.status)) = some 1 := by
      rw [hrec]; simp [hst]
    constructor
    · simp [processUnit, h, isMetrics, isSubmit, isUpsert]
    · simp [processUnit, h]

/-- Witness for `ledger_status_one_skips`: a concrete unit whose ledger
row is at status `1` (with arbitrary other fields populated) produces no
metric computation, submission or upsert. -/
theorem ledger_status_one_skips_witness :
    ((⟨"BLK_123_S2_2022-10-01", "flood",
        some ⟨1, some 30, some (9/10), "gs://bucket/x.tif"⟩,
        some (30, 9/10)⟩ : UnitSpec).ledgerRecord =
      some ⟨1, some 30, some (9/10), "gs://bucket/x.tif"⟩) ∧
    (LedgerRow.status ⟨1, some 30, some (9/10), "gs://bucket/x.tif"⟩ = 1) ∧
    ((processUnit ⟨95/100, 10/100, 7/10, 1/10⟩ false
        ⟨"BLK_123_S2_2022-10-01", "flood",
          some ⟨1, some 30, some (9/10), "gs://bucket/x.tif"⟩,
          some (30, 9/10)⟩).all
      (fun a => !(isMetrics a || isSubmit a || isUpsert a)) = true) :=
  ⟨rfl, rfl,
   (ledger_status_one_skips ⟨95/100, 10/100, 7/10, 1/10⟩ false
      ⟨"BLK_123_S2_2022-10-01", "flood",
        some ⟨1, some 30, some (9/10), "gs://bucket/x.tif"⟩,
        some (30, 9/10)⟩
      ⟨1, some 30, some (9/10), "gs://bucket/x.tif"⟩ rfl rfl).1⟩

/-- C4 counterexample: The claim says a unit whose metric
computation raises is "recorded in the ledger with status 0".  At this
concrete input — a fresh unit (no ledger row, no active task) whose
remote metric computation raises — the loop body logs the exception and
continues, but performs no ledger write at all: the `except` block at
lines 542-545 only warns and prints the traceback, and the
`do_update_download` call at line 537 is unreachable once line 449
raised. -/
theorem metric_error_counterexample :
    (⟨"BLK_9_S2_2022-10-02", "flood", none, none⟩ : UnitSpec).metrics
       = none ∧
    processUnit ⟨95/100, 10/100, 7/10, 1/10⟩ false
        ⟨"BLK_9_S2_2022-10-02", "flood", none, none⟩ =
      [Act.queryActive "BLK_9_S2_2022-10-02",
       Act.ledgerLookup "BLK_9_S2_2022-10-02",
       Act.computeMetrics "BLK_9_S2_2022-10-02",
       Act.logException "BLK_9_S2_2022-10-02"] ∧
    ((processUnit ⟨95/100, 10/100, 7/10, 1/10⟩ false
        ⟨"BLK_9_S2_2022-10-02", "flood", none, none⟩).all
      (fun a => !(isUpsert a)) = true) := by
  refine ⟨rfl, ?_, ?_⟩ <;> simp [processUnit, isUpsert]

/-- C4 amended: For every Export Unit whose metric computation
raises, the orchestrator logs the exception and continues with the
remaining units, writing no ledger record at all for the failed unit
(in particular not a status-0 record); no exception raised while
processing one unit aborts the batch — a run over `u :: rest` still
produces one trace per unit. -/
theorem metric_error_isolated (t : Thresholds) (u : UnitSpec)
    (hm : u.metrics = none)
    (hst : (u.ledgerRecord.map (·.status)) ≠ some 1) :
    processUnit t false u =
      [Act.queryActive u.desc, Act.ledgerLookup u.desc,
       Act.computeMetrics u.desc, Act.logException u.desc] ∧
    ((processUnit t false u).all (fun a => !(isUpsert a || isSubmit a))
        = true) ∧
    (∀ (active : List String) (rest : List UnitSpec),
      (runUnits t active (u :: rest)).length = rest.length + 1) := by
  refine ⟨?_, ?_, ?_⟩
  · simp [processUnit, hst, hm]
  · simp [processUnit, hst, hm, isUpsert, isSubmit]
  · intro active rest
    rw [runUnits_length]
    rfl

/-- Witness for `metric_error_isolated`: a concrete fresh unit whose
metric computation raises is logged, triggers no ledger write, and a
run containing it and one further unit still processes both. -/
theorem metric_error_isolated_witness :
    ((⟨"BLK_10_Landsat_2022-10-03", "ref", none, none⟩ : UnitSpec).metrics
       = none) ∧
    ((⟨"BLK_10_Landsat_2022-10-03", "ref", none,
        none⟩ : UnitSpec).ledgerRecord.map (·.status) ≠ some 1) ∧
    (runUnits ⟨95/100, 10/100, 7/10, 1/10⟩ []
      [⟨"BLK_10_Landsat_2022-10-03", "ref", none, none⟩,
       ⟨"BLK_11_S2_2022-10-04", "flood", none, some (20, 1)⟩]).length
        = 1 + 1 :=
  ⟨rfl, by simp,
   (metric_error_isolated ⟨95/100, 10/100, 7/10, 1/10⟩
      ⟨"BLK_10_Landsat_2022-10-03", "ref", none, none⟩ rfl (by simp)).2.2
      [] [⟨"BLK_11_S2_2022-10-04", "flood", none, some (20, 1)⟩]⟩

lemma monitorPass_measure_le : ∀ ts : List MTask,
    mMeasure (monitorPass ts).1 ≤ mMeasure ts := by
  intro ts
  induction ts with
  | nil => simp [monitorPass, mMeasure]
  | cons t ts ih =>
    simp only [monitorPass, mMeasure] at *
    split <;> simp only [List.map_cons, List.sum_cons] <;> omega

lemma monitorPass_measure_lt : ∀ ts : List MTask, ts ≠ [] →
    mMeasure (monitorPass ts).1 < mMeasure ts := by
  intro ts h
  cases ts with
  | nil => exact absurd rfl h
  | cons t ts =>
    have hle := monitorPass_measure_le ts
    simp only [monitorPass, mMeasure] at *
    split <;> simp only [List.map_cons, List.sum_cons] <;> omega

lemma monitorPass_writes_perm : ∀ ts : List MTask,
    ((monitorPass ts).2 ++ (monitorPass ts).1.map taskWrite).Perm
      (ts.map taskWrite) := by
  intro ts
  induction ts with
  | nil => simp [monitorPass]
  | cons t ts ih =>
    simp only [monitorPass]
    split
    · simp only [List.map_cons]
      have hw : taskWrite ⟨t.desc, t.activeSteps - 1, t.finalState⟩
          = taskWrite t := rfl
      rw [hw]
      exact (List.perm_middle).trans (List.Perm.cons _ ih)
    · simp only [List.cons_append, List.map_cons]
      exact List.Perm.cons _ ih

lemma monitorPass_writes_are_writes : ∀ ts : List MTask,
    writesOf (monitorPass ts).2 = (monitorPass ts).2 := by
  intro ts
  induction ts with
  | nil => rfl
  | cons t ts ih =>
    simp only [monitorPass]
    split
    · exact ih
    · simp only [writesOf, List.filter_cons, taskWrite] at *
      simp [ih]

lemma monitorLoop_writes_perm_aux : ∀ (n : Nat) (ts : List MTask),
    mMeasure ts ≤ n →
    (writesOf (monitorLoop ts)).Perm (ts.map taskWrite) := by
  intro n
  induction n with
  | zero =>
    intro ts hle
    have hts : ts = [] := by
      cases ts with
      | nil => rfl
      | cons t ts =>
        exfalso
        simp only [mMeasure, List.map_cons, List.sum_cons] at hle
        omega
    subst hts
    rw [monitorLoop]
    simp [writesOf]
  | succ n ih =>
    intro ts hle
    by_cases h : ts = []
    · subst h
      rw [monitorLoop]
      simp [writesOf]
    · rw [monitorLoop, dif_neg h]
      have hdec := monitorPass_measure_lt ts h
      have ihp := ih (monitorPass ts).1 (by omega)
      have hsplit : writesOf ((monitorPass ts).2 ++
          (MEvent.sleep :: monitorLoop (monitorPass ts).1)) =
          writesOf (monitorPass ts).2 ++
            writesOf (monitorLoop (monitorPass ts).1) := by
        simp [writesOf, List.filter_append]
      rw [hsplit, monitorPass_writes_are_writes ts]
      exact (ihp.append_left (monitorPass ts).2).trans
        (monitorPass_writes_perm ts)

lemma monitorLoop_writes_perm (ts : List MTask) :
    (writesOf (monitorLoop ts)).Perm (ts.map taskWrite) :=
  monitorLoop_writes_perm_aux (mMeasure ts) ts le_rfl

/-- C5: `monitor_tasks`: every handle receives exactly one ledger
write — the multiset of writes emitted by the loop is exactly one per
task, with status `1` when its terminal state is `"COMPLETED"` and `0`
otherwise, keyed by its description with the last five characters
stripped when it contains the permanent-water tag; the loop emits
nothing (terminates at once) exactly when no handles remain active, and
each pass polls every outstanding handle and ends with one
fixed-interval sleep. -/
theorem monitor_tasks_writes (ts : List MTask) :
    ((writesOf (monitorLoop ts)).Perm (ts.map taskWrite)) ∧
    (monitorLoop ts = [] ↔ ts = []) ∧
    (ts ≠ [] → monitorLoop ts =
      (monitorPass ts).2 ++
        (MEvent.sleep :: monitorLoop (monitorPass ts).1)) := by
  refine ⟨monitorLoop_writes_perm ts, ?_, ?_⟩
  · constructor
    · intro hempty
      by_cases h : ts = []
      · exact h
      · rw [monitorLoop, dif_neg h] at hempty
        simp at hempty
    · intro h
      subst h
      rw [monitorLoop]
      simp
  · intro h
    rw [monitorLoop, dif_neg h]

/-- Witness for `monitor_tasks_writes`: two concrete handles — a
completed grid-patch job and a failed permanent-water job (whose
description carries a 5-character date suffix) — receive exactly the
writes `(1, "BLK_1_S2_2022-10-01")` and
`(0, "BLK_1_PERMANENTWATERJRC")`. -/
theorem monitor_tasks_writes_witness :
    ([⟨"BLK_1_S2_2022-10-01", 2, "COMPLETED"⟩,
      ⟨"BLK_1_PERMANENTWATERJRC_2022", 0, "FAILED"⟩] : List MTask) ≠ [] ∧
    (monitorLoop
      [⟨"BLK_1_S2_2022-10-01", 2, "COMPLETED"⟩,
       ⟨"BLK_1_PERMANENTWATERJRC_2022", 0, "FAILED"⟩] =
      (monitorPass
        [⟨"BLK_1_S2_2022-10-01", 2, "COMPLETED"⟩,
         ⟨"BLK_1_PERMANENTWATERJRC_2022", 0, "FAILED"⟩]).2 ++
        (MEvent.sleep :: monitorLoop (monitorPass
          [⟨"BLK_1_S2_2022-10-01", 2, "COMPLETED"⟩,
           ⟨"BLK_1_PERMANENTWATERJRC_2022", 0, "FAILED"⟩]).1)) ∧
    (writesOf (monitorLoop
      [⟨"BLK_1_S2_2022-10-01", 2, "COMPLETED"⟩,
       ⟨"BLK_1_PERMANENTWATERJRC_2022", 0, "FAILED"⟩])).Perm
      [MEvent.write 1 "BLK_1_S2_2022-10-01",
       MEvent.write 0 "BLK_1_PERMANENTWATERJRC"] := by
  have h1 : stripDesc "BLK_1_S2_2022-10-01" = "BLK_1_S2_2022-10-01" := by
    unfold stripDesc
    rw [if_neg]
    decide
  have h2 : stripDesc "BLK_1_PERMANENTWATERJRC_2022"
      = "BLK_1_PERMANENTWATERJRC" := by
    unfold stripDesc
    rw [if_pos]
    · decide
    · decide
  refine ⟨by simp, (monitor_tasks_writes
    [⟨"BLK_1_S2_2022-10-01", 2, "COMPLETED"⟩,
     ⟨"BLK_1_PERMANENTWATERJRC_2022", 0, "FAILED"⟩]).2.2 (by simp), ?_⟩
  · have h := (monitor_tasks_writes
      [⟨"BLK_1_S2_2022-10-01", 2, "COMPLETED"⟩,
       ⟨"BLK_1_PERMANENTWATERJRC_2022", 0, "FAILED"⟩]).1
    have he : ([⟨"BLK_1_S2_2022-10-01", 2, "COMPLETED"⟩,
        ⟨"BLK_1_PERMANENTWATERJRC_2022", 0, "FAILED"⟩] : List MTask).map
          taskWrite
        = [MEvent.write 1 "BLK_1_S2_2022-10-01",
           MEvent.write 0 "BLK_1_PERMANENTWATERJRC"] := by
      simp only [List.map_cons, List.map_nil, taskWrite, h1, h2,
        String.reduceEq, reduceIte]
    rw [he] at h
    exact h

lemma dropDuplicatesFirstAux_subset :
    ∀ (l : List AoiRow) (seen : List String),
      ∀ r ∈ dropDuplicatesFirstAux seen l, r ∈ l := by
  intro l
  induction l with
  | nil => intro seen r hr; simp [dropDuplicatesFirstAux] at hr
  | cons a rest ih =>
    intro seen r hr
    rw [dropDuplicatesFirstAux] at hr
    split at hr
    · exact List.mem_cons_of_mem a (ih seen r hr)
    · rcases List.mem_cons.mp hr with h | h
      · exact h ▸ List.mem_cons_self a rest
      · exact List.mem_cons_of_mem a (ih _ r h)

lemma dropDuplicatesFirstAux_not_seen :
    ∀ (l : List AoiRow) (seen : List String),
      ∀ r ∈ dropDuplicatesFirstAux seen l, r.patch_name ∉ seen := by
  intro l
  induction l with
  | nil => intro seen r hr; simp [dropDuplicatesFirstAux] at hr
  | cons a rest ih =>
    intro seen r hr
    rw [dropDuplicatesFirstAux] at hr
    split at hr
    · exact ih seen r hr
    · rcases List.mem_cons.mp hr with h | h
      · subst h; assumption
      · intro hmem
        exact ih _ r h (List.mem_cons_of_mem _ hmem)

lemma dropDuplicatesFirstAux_first_occurrence :
    ∀ (l : List AoiRow) (seen : List String),
      ∀ r ∈ dropDuplicatesFirstAux seen l,
        l.find? (fun x => x.patch_name == r.patch_name) = some r := by
  intro l
  induction l with
  | nil => intro seen r hr; simp [dropDuplicatesFirstAux] at hr
  | cons a rest ih =>
    intro seen r hr
    rw [dropDuplicatesFirstAux] at hr
    split at hr
    · have hne : r.patch_name ≠ a.patch_name := by
        intro he
        exact (dropDuplicatesFirstAux_not_seen rest seen r hr) (he ▸ (by assumption))
      rw [List.find?_cons_of_neg _ (by simpa using fun he => hne he.symm)]
      exact ih seen r hr
    · rcases List.mem_cons.mp hr with h | h
      · subst h
        exact List.find?_cons_of_pos _ (by simp)
      · have hnotseen := dropDuplicatesFirstAux_not_seen rest _ r h
        have hne : r.patch_name ≠ a.patch_name := by
          intro he
          exact hnotseen (he ▸ List.mem_cons_self _ _)
        rw [List.find?_cons_of_neg _ (by simpa using fun he => hne he.symm)]
        exact ih _ r h

lemma dropDuplicatesFirstAux_nodup_names :
    ∀ (l : List AoiRow) (seen : List String),
      (dropDuplicatesFirstAux seen l).Pairwise
        (fun a b => a.patch_name ≠ b.patch_name) := by
  intro l
  induction l with
  | nil => intro seen; rw [dropDuplicatesFirstAux]; exact List.Pairwise.nil
  | cons a rest ih =>
    intro seen
    rw [dropDuplicatesFirstAux]
    split
    · exact ih seen
    · refine List.pairwise_cons.mpr ⟨?_, ih _⟩
      intro b hb
      have := dropDuplicatesFirstAux_not_seen rest _ b hb
      intro he
      exact this (he ▸ List.mem_cons_self _ _)

lemma dropDuplicatesFirstAux_covers :
    ∀ (l : List AoiRow) (seen : List String), ∀ r ∈ l,
      r.patch_name ∉ seen →
      ∃ s ∈ dropDuplicatesFirstAux seen l, s.patch_name = r.patch_name := by
  intro l
  induction l with
  | nil => intro seen r hr; simp at hr
  | cons a rest ih =>
    intro seen r hr hns
    rw [dropDuplicatesFirstAux]
    rcases List.mem_cons.mp hr with h | h
    · subst h
      rw [if_neg hns]
      exact ⟨r, List.mem_cons_self _ _, rfl⟩
    · by_cases hseen : a.patch_name ∈ seen
      · rw [if_pos hseen]
        exact ih seen r h hns
      · rw [if_neg hseen]
        by_cases hname : r.patch_name = a.patch_name
        · exact ⟨a, List.mem_cons_self _ _, hname.symm⟩
        · obtain ⟨s, hs, hsn⟩ := ih (a.patch_name :: seen) r h
            (by simp [hns, hname])
          exact ⟨s, List.mem_cons_of_mem _ hs, hsn⟩

/-- C6: Deduplication by `patch_name` keeps exactly the first
occurrence of each name: every kept row is the first row of the input
bearing its name, no two kept rows share a name, every input name
survives, and the concrete 5-row table whose rows are named
`a, b, a, c, b` (2 duplicate names) yields exactly the 3 units
`a, b, c` (the first occurrences, in order). -/
theorem drop_duplicates_keeps_first (l : List AoiRow) :
    (∀ r ∈ dropDuplicatesFirst l,
      l.find? (fun x => x.patch_name == r.patch_name) = some r) ∧
    ((dropDuplicatesFirst l).Pairwise
      (fun a b => a.patch_name ≠ b.patch_name)) ∧
    (∀ r ∈ l, ∃ s ∈ dropDuplicatesFirst l, s.patch_name = r.patch_name) ∧
    (dropDuplicatesFirst
        [⟨"a", 0⟩, ⟨"b", 1⟩, ⟨"a", 2⟩, ⟨"c", 3⟩, ⟨"b", 4⟩]
      = [⟨"a", 0⟩, ⟨"b", 1⟩, ⟨"c", 3⟩]) :=
  ⟨dropDuplicatesFirstAux_first_occurrence l [],
   dropDuplicatesFirstAux_nodup_names l [],
   fun r hr => dropDuplicatesFirstAux_covers l [] r hr (by simp),
   by decide⟩

/-- Witness for `drop_duplicates_keeps_first`, instantiated on the
5-row table with 2 duplicate names: the kept row named `"b"` is the
first `"b"` row of the input, and the dropped later `"b"` row is still
represented by name. -/
theorem drop_duplicates_keeps_first_witness :
    ((⟨"b", 1⟩ : AoiRow) ∈ dropDuplicatesFirst
        [⟨"a", 0⟩, ⟨"b", 1⟩, ⟨"a", 2⟩, ⟨"c", 3⟩, ⟨"b", 4⟩]) ∧
    (([⟨"a", 0⟩, ⟨"b", 1⟩, ⟨"a", 2⟩, ⟨"c", 3⟩,
        ⟨"b", 4⟩] : List AoiRow).find?
      (fun x => x.patch_name == "b") = some ⟨"b", 1⟩) ∧
    ((⟨"b", 4⟩ : AoiRow) ∈
      ([⟨"a", 0⟩, ⟨"b", 1⟩, ⟨"a", 2⟩, ⟨"c", 3⟩, ⟨"b", 4⟩] : List AoiRow)) ∧
    (∃ s ∈ dropDuplicatesFirst
        [⟨"a", 0⟩, ⟨"b", 1⟩, ⟨"a", 2⟩, ⟨"c", 3⟩, ⟨"b", 4⟩],
      s.patch_name = AoiRow.patch_name ⟨"b", 4⟩) := by
  refine ⟨by decide, ?_, by decide, ?_⟩
  · exact (drop_duplicates_keeps_first
      [⟨"a", 0⟩, ⟨"b", 1⟩, ⟨"a", 2⟩, ⟨"c", 3⟩, ⟨"b", 4⟩]).1
      ⟨"b", 1⟩ (by decide)
  · exact (drop_duplicates_keeps_first
      [⟨"a", 0⟩, ⟨"b", 1⟩, ⟨"a", 2⟩, ⟨"c", 3⟩, ⟨"b", 4⟩]).2.2.1
      ⟨"b", 4⟩ (by decide)

lemma mem_exportUnit_iff (scenes : List Scene)
    (k : String × String × String × String) (s : Scene) :
    (s ∈ scenes.filter (fun x => decide (sceneKey x = k))) ↔
      (s ∈ scenes ∧ sceneKey s = k) := by
  simp [List.mem_filter]

/-- C7: Grouping is a partition by
`(patch_name, solarday, satellite, mode)`: two scenes with the same key
are never placed in different Export Units (any two units containing
them, respectively, coincide), and two scenes in one Export Unit always
share their full key — in particular their spatial unit (`patch_name`) —
so scenes of different spatial units are never merged. -/
theorem grouping_partition (scenes : List Scene) :
    (∀ u1 ∈ exportUnits scenes, ∀ u2 ∈ exportUnits scenes,
      ∀ s1 ∈ u1, ∀ s2 ∈ u2, sceneKey s1 = sceneKey s2 → u1 = u2) ∧
    (∀ u ∈ exportUnits scenes, ∀ s1 ∈ u, ∀ s2 ∈ u,
      sceneKey s1 = sceneKey s2 ∧ s1.patch_name = s2.patch_name) := by
  constructor
  · intro u1 hu1 u2 hu2 s1 hs1 s2 hs2 hkey
    obtain ⟨k1, _, hk1⟩ := List.mem_map.mp hu1
    obtain ⟨k2, _, hk2⟩ := List.mem_map.mp hu2
    subst hk1; subst hk2
    have h1 := ((mem_exportUnit_iff scenes k1 s1).mp hs1).2
    have h2 := ((mem_exportUnit_iff scenes k2 s2).mp hs2).2
    have hk : k1 = k2 := by rw [← h1, hkey, h2]
    rw [hk]
  · intro u hu s1 hs1 s2 hs2
    obtain ⟨k, _, hk⟩ := List.mem_map.mp hu
    subst hk
    have h1 := ((mem_exportUnit_iff scenes k s1).mp hs1).2
    have h2 := ((mem_exportUnit_iff scenes k s2).mp hs2).2
    have hkey : sceneKey s1 = sceneKey s2 := by rw [h1, h2]
    refine ⟨hkey, ?_⟩
    have := congrArg Prod.fst hkey
    simpa [sceneKey] using this

/-- Witness for `grouping_partition`: a 3-scene table in which two
scenes share the key `("P1", "2022-10-01", "S2", "flood")` (adjacent
footprints of the same pass) and the third belongs to patch `"P2"`.
The two same-key scenes land in the same (first) unit. -/
theorem grouping_partition_witness :
    (([⟨"P1", "2022-10-01", "S2", "flood", "id1"⟩,
       ⟨"P1", "2022-10-01", "S2", "flood", "id2"⟩,
       ⟨"P2", "2022-10-01", "S2", "flood", "id3"⟩] : List Scene).filter
        (fun s => decide (sceneKey s = ("P1", "2022-10-01", "S2", "flood")))
      ∈ exportUnits
        [⟨"P1", "2022-10-01", "S2", "flood", "id1"⟩,
         ⟨"P1", "2022-10-01", "S2", "flood", "id2"⟩,
         ⟨"P2", "2022-10-01", "S2", "flood", "id3"⟩]) ∧
    (sceneKey ⟨"P1", "2022-10-01", "S2", "flood", "id1"⟩ =
      sceneKey ⟨"P1", "2022-10-01", "S2", "flood", "id2"⟩) ∧
    ((⟨"P1", "2022-10-01", "S2", "flood", "id1"⟩ : Scene).patch_name =
      (⟨"P1", "2022-10-01", "S2", "flood", "id2"⟩ : Scene).patch_name) := by
  refine ⟨by decide, by decide, ?_⟩
  exact ((grouping_partition
    [⟨"P1", "2022-10-01", "S2", "flood", "id1"⟩,
     ⟨"P1", "2022-10-01", "S2", "flood", "id2"⟩,
     ⟨"P2", "2022-10-01", "S2", "flood", "id3"⟩]).2
    (([⟨"P1", "2022-10-01", "S2", "flood", "id1"⟩,
       ⟨"P1", "2022-10-01", "S2", "flood", "id2"⟩,
       ⟨"P2", "2022-10-01", "S2", "flood", "id3"⟩] : List Scene).filter
        (fun s => decide (sceneKey s = ("P1", "2022-10-01", "S2", "flood"))))
    (by decide)
    ⟨"P1", "2022-10-01", "S2", "flood", "id1"⟩ (by decide)
    ⟨"P1", "2022-10-01", "S2", "flood", "id2"⟩ (by decide)).2

/-- C9: A future-dated start date is fatal (for the flood range,
and for the reference range when one is supplied); a future-dated end
date alone is clamped to the current time and the run continues, with
the warning flag set exactly when clamping happened; a non-future end
date is left unchanged. -/
theorem future_dates_handling (fs fe today : Int)
    (refDates : Option (Int × Int)) :
    (fs > today →
      setPeriods fs fe refDates today =
        Except.error "[ERR] Flood start date set to future time!") ∧
    (∀ rs re, refDates = some (rs, re) → fs ≤ today → rs > today →
      setPeriods fs fe refDates today =
        Except.error "[ERR] Ref start date set to future time!") ∧
    (fs ≤ today → (∀ rs re, refDates = some (rs, re) → rs ≤ today) →
      ∃ d : DateSetup, setPeriods fs fe refDates today = Except.ok d ∧
        d.floodPeriod.1 = fs ∧
        d.floodPeriod.2 = (if fe > today then today else fe) ∧
        (d.floodWarned = true ↔ fe > today) ∧
        (∀ rs re, refDates = some (rs, re) →
          d.refPeriod = some ((rs, if re > today then today else re),
            decide (re > today)))) := by
  refine ⟨?_, ?_, ?_⟩
  · intro hfs
    unfold setPeriods
    rw [if_pos hfs]
  · intro rs re href hfs hrs
    subst href
    unfold setPeriods
    rw [if_neg (by omega)]
    simp only []
    rw [if_pos hrs]
  · intro hfs href
    cases refDates with
    | none =>
      refine ⟨⟨(fs, if fe > today then today else fe),
        decide (fe > today), none⟩, ?_, rfl, rfl, by simp, ?_⟩
      · unfold setPeriods
        rw [if_neg (by omega)]
      · intro rs re h; cases h
    | some p =>
      obtain ⟨rs, re⟩ := p
      have hrs : rs ≤ today := href rs re rfl
      refine ⟨⟨(fs, if fe > today then today else fe),
        decide (fe > today),
        some ((rs, if re > today then today else re),
          decide (re > today))⟩, ?_, rfl, rfl, by simp, ?_⟩
      · unfold setPeriods
        rw [if_neg (by omega)]
        simp only []
        rw [if_neg (by omega)]
      · intro rs2 re2 h
        cases h
        rfl

/-- Witness for `future_dates_handling` with `today = 100`: a flood
range `(50, 120)` (future end) and reference range `(10, 20)` — the run
continues with the flood end clamped to `100` and the warning set. -/
theorem future_dates_handling_witness :
    ((120 : Int) > 100) ∧
    (setPeriods 120 130 none 100 =
      Except.error "[ERR] Flood start date set to future time!") ∧
    (setPeriods 50 60 (some (120, 130)) 100 =
      Except.error "[ERR] Ref start date set to future time!") ∧
    ((50 : Int) ≤ 100) ∧
    (∃ d : DateSetup,
      setPeriods 50 120 (some (10, 20)) 100 = Except.ok d ∧
      d.floodPeriod.1 = 50 ∧
      d.floodPeriod.2 = (if (120 : Int) > 100 then (100 : Int) else 120) ∧
      (d.floodWarned = true ↔ (120 : Int) > 100) ∧
      (∀ rs re, (some ((10 : Int), (20 : Int))) = some (rs, re) →
        d.refPeriod = some ((rs, if re > 100 then (100 : Int) else re),
          decide (re > (100 : Int))))) :=
  ⟨by norm_num,
   (future_dates_handling 120 130 100 none).1 (by norm_num),
   (future_dates_handling 50 60 100 (some (120, 130))).2.1 120 130 rfl
     (by norm_num) (by norm_num),
   by norm_num,
   (future_dates_handling 50 120 100 (some (10, 20))).2.2 (by norm_num)
     (by intro rs re h; cases h; norm_num)⟩

lemma auxRun_length (scope : List String) :
    ∀ l : List (String × AuxEnv), (auxRun scope l).length = l.length := by
  intro l
  induction l with
  | nil => rfl
  | cons pe rest ih =>
    obtain ⟨p, env⟩ := pe
    simp [auxRun, ih]

/-- C10: `patch_name` is not among the names bound in `main`, so
whenever a permanent-water export task is successfully created for a
patch not already completed, the loop body appends the job handle to
the monitor queue and then hits a `NameError` evaluating the
`do_update_download` arguments: the provisional status `-1` record is
never written (no upsert of any status occurs), the exception is caught
and logged, and the loop continues with the remaining patches. -/
theorem permanent_water_patch_name_bug (patchName : String) (env : AuxEnv)
    (htask : env.taskCreated = true)
    (hst : (match env.ledgerStatus with
      | some s => s
      | none => 0) ≠ 1) :
    ("patch_name" ∉ mainScopeNames) ∧
    processAuxPatch mainScopeNames patchName env =
      [AuxAct.ledgerLookup (patchName ++ "_PERMANENTWATERJRC"),
       AuxAct.commandDownload (patchName ++ "_PERMANENTWATERJRC"),
       AuxAct.appendTask (patchName ++ "_PERMANENTWATERJRC"),
       AuxAct.nameErrorLogged "patch_name"] ∧
    (∀ s : Int, AuxAct.ledgerUpsert (patchName ++ "_PERMANENTWATERJRC") s
      ∉ processAuxPatch mainScopeNames patchName env) ∧
    (∀ rest : List (String × AuxEnv),
      (auxRun mainScopeNames ((patchName, env) :: rest)).length
        = rest.length + 1) := by
  have hscope : "patch_name" ∉ mainScopeNames := by decide
  have hbody : processAuxPatch mainScopeNames patchName env =
      [AuxAct.ledgerLookup (patchName ++ "_PERMANENTWATERJRC"),
       AuxAct.commandDownload (patchName ++ "_PERMANENTWATERJRC"),
       AuxAct.appendTask (patchName ++ "_PERMANENTWATERJRC"),
       AuxAct.nameErrorLogged "patch_name"] := by
    unfold processAuxPatch
    rw [if_neg hst, if_pos htask, if_neg hscope]
  refine ⟨hscope, hbody, ?_, ?_⟩
  · intro s
    rw [hbody]
    simp
  · intro rest
    simp [auxRun, auxRun_length]

/-- Witness for `permanent_water_patch_name_bug`: patch `"BLK_7"` with
no prior ledger row and a successfully created export task — the handle
is queued, no upsert happens, the `NameError` is logged, and a run with
one further patch still processes both. -/
theorem permanent_water_patch_name_bug_witness :
    ((⟨none, true⟩ : AuxEnv).taskCreated = true) ∧
    processAuxPatch mainScopeNames "BLK_7" ⟨none, true⟩ =
      [AuxAct.ledgerLookup "BLK_7_PERMANENTWATERJRC",
       AuxAct.commandDownload "BLK_7_PERMANENTWATERJRC",
       AuxAct.appendTask "BLK_7_PERMANENTWATERJRC",
       AuxAct.nameErrorLogged "patch_name"] ∧
    (auxRun mainScopeNames
      [("BLK_7", ⟨none, true⟩), ("BLK_8", ⟨some 1, false⟩)]).length
        = 1 + 1 :=
  ⟨rfl,
   (permanent_water_patch_name_bug "BLK_7" ⟨none, true⟩ rfl
     (by simp)).2.1,
   (permanent_water_patch_name_bug "BLK_7" ⟨none, true⟩ rfl
     (by simp)).2.2.2 [("BLK_8", ⟨some 1, false⟩)]⟩
